import Mathlib

/-!
Shallow embedding of the `mail_composer` crate (rust_tools repository) and
proofs about its specification claims.

Each definition mirrors one Rust item; the Rust path is given in the
doc comment of the definition.  Strings are Lean `String`s (lists of
unicode scalar values), machine integers are `Nat` with explicit wrap
arithmetic where the Rust code does bit-level operations.
-/

namespace MailComposer

/-- Rust `share::error::kind::ErrorKind` (src/rust/share/src/error/kind.rs). -/
inductive ErrorKind where
  | BadRequest
  | Unauthorized
  | Forbidden
  | NotFound
  | RequestTimeout
  | Conflict
  | UnprocessableEntity
  | TooManyRequests
  | UnavailableForLegalReasons
  | InternalServerError
  | ServiceUnavailable
  | UnexpectedServerError
  deriving DecidableEq, Repr

/-- Rust `share::error::app_error::AppError` (src/rust/share/src/error/app_error.rs).
The `source` field (a boxed dynamic error, not serialized, never inspected by
the code under study) is omitted from the embedding. -/
structure AppError where
  kind : ErrorKind
  message : String
  action : Option String
  deriving DecidableEq, Repr

/-- Rust `AppError::new`: default message, no action, no source. -/
def AppError.new (kind : ErrorKind) : AppError :=
  { kind := kind, message := "エラーが発生しました。", action := none }

/-- Rust `AppError::with_message`. -/
def AppError.with_message (e : AppError) (m : String) : AppError :=
  { e with message := m }

/-- Rust `AppError::with_action`. -/
def AppError.with_action (e : AppError) (a : String) : AppError :=
  { e with action := some a }

/-- Rust `share::error::app_error::AppResult<T> = Result<T, AppError>`. -/
abbrev AppResult (α : Type) := Except AppError α

/-- Decidable equality of results, for concrete evaluation in witnesses. -/
instance {ε α : Type} [DecidableEq ε] [DecidableEq α] : DecidableEq (Except ε α)
  | .error a, .error b =>
    if h : a = b then .isTrue (by rw [h]) else
      .isFalse (fun hc => by cases hc; exact h rfl)
  | .error _, .ok _ => .isFalse (fun hc => by cases hc)
  | .ok _, .error _ => .isFalse (fun hc => by cases hc)
  | .ok a, .ok b =>
    if h : a = b then .isTrue (by rw [h]) else
      .isFalse (fun hc => by cases hc; exact h rfl)

/-! ### Rust `str::replace`

`str::replace(from, to)` scans the string left to right, replacing each
non-overlapping match of `from` by `to` and continuing the scan after the
replacement text.  Every pattern used in this crate is non-empty. -/

/-- Core of `str::replace` on the character list of the string.  The second
argument is the number of characters of the current match still to be skipped
(the scan continues after the replacement text); a fresh scan has skip `0`.
Structural recursion on the list keeps the definition kernel-reducible. -/
def replaceGo (pat rep : List Char) : List Char → Nat → List Char
  | [], _ => []
  | _ :: rest, skip + 1 => replaceGo pat rep rest skip
  | c :: rest, 0 =>
    if pat.isPrefixOf (c :: rest) then
      rep ++ replaceGo pat rep rest (pat.length - 1)
    else
      c :: replaceGo pat rep rest 0

/-- Rust `s.replace(pat, rep)` (string-pattern form; the char-pattern form
`s.replace('c', rep)` is the same with a one-character pattern).  Every
pattern used by the crate is non-empty. -/
def rustReplace (s pat rep : String) : String :=
  ⟨replaceGo pat.data rep.data s.data 0⟩

/-! ### Value objects (src/rust/mail_composer/src/domain/value_objects) -/

/-- Rust `EmailAddress` (email_address.rs): a validated wrapper around a string. -/
structure EmailAddress where
  val : String
  deriving DecidableEq, Repr

/-- Rust `EmailAddress::parse` (email_address.rs lines 20-31): fails iff the string
contains no `@`. -/
def EmailAddress.parse (email_address : String) : AppResult EmailAddress :=
  if ¬ email_address.data.contains '@' then
    .error (((AppError.new .UnavailableForLegalReasons).with_message
        ("メールアドレスの形式が不正です。詳細: " ++ email_address)).with_action
        "正しいメールアドレスを指定してください。")
  else
    .ok ⟨email_address⟩

/-- Rust `Subject` (mail_objects.rs line 9). -/
structure Subject where
  val : String
  deriving DecidableEq, Repr

/-- Rust `Subject::new` (mail_objects.rs lines 20-28).  Rust tests
`subject.trim().is_empty()`; a string trims to empty exactly when every one of
its characters is whitespace. -/
def Subject.new (subject : String) : AppResult Subject :=
  if subject.data.all Char.isWhitespace then
    .error (((AppError.new .UnavailableForLegalReasons).with_message
        "件名が空です。").with_action "適切な件名を設定してください。")
  else
    .ok ⟨subject⟩

/-- Rust `MailBody` (mail_objects.rs line 38): an arbitrary string. -/
structure MailBody where
  val : String
  deriving DecidableEq, Repr

/-- Rust `MailBody::new` (mail_objects.rs lines 48-50): infallible. -/
def MailBody.new (body : String) : MailBody := ⟨body⟩

/-- Rust `MailBody::to_crlf` (mail_objects.rs lines 58-60):
`self.0.replace('\n', "\r\n")`. -/
def MailBody.to_crlf (b : MailBody) : String :=
  rustReplace b.val "\n" "\r\n"

/-- The Rust `usize::MAX` on a 64-bit target; `!n` on a `usize` is
`usize::MAX - n` for `n ≤ usize::MAX`. -/
def USIZE_MAX : Nat := 2 ^ 64 - 1

/-- Rust `WorkTime` (mail_objects.rs line 65). -/
structure WorkTime where
  val : String
  deriving DecidableEq, Repr

/-- Rust `time.matches(':').count()`: the number of `:` characters. -/
def colonCount (s : String) : Nat := s.data.count ':'

/-- Rust `WorkTime::new` (mail_objects.rs lines 76-85).  The Rust source reads
`if !time.matches(':').count() == 1 || time.len() != 5`; by Rust precedence the
`!` is the bitwise complement of the `usize` count, so the first disjunct is
`usize::MAX - count == 1` and `time.len()` is the UTF-8 byte length. -/
def WorkTime.new (time : String) : AppResult WorkTime :=
  if (USIZE_MAX - colonCount time == 1) || (time.utf8ByteSize != 5) then
    .error (((AppError.new .UnavailableForLegalReasons).with_message
        "時刻の形式が不正です。").with_action "HH:MM形式で時刻を指定してください。")
  else
    .ok ⟨time⟩

/-- Rust `WorkTimeRange` (mail_objects.rs lines 102-105).  The Rust fields are
`start` and `end`; `end` is a Lean keyword, hence `end_`. -/
structure WorkTimeRange where
  start : WorkTime
  end_ : WorkTime
  deriving DecidableEq, Repr

/-- Rust `WorkTimeRange::new` (mail_objects.rs lines 116-118). -/
def WorkTimeRange.new (start end_ : WorkTime) : WorkTimeRange :=
  ⟨start, end_⟩

/-- Rust `WorkTimeRange::to_string` (mail_objects.rs lines 131-133):
`format!("{}-{}", start, end)`. -/
def WorkTimeRange.to_string (r : WorkTimeRange) : String :=
  r.start.val ++ "-" ++ r.end_.val

/-! ### Mail templates (src/rust/mail_composer/src/domain/value_objects/mail_config.rs) -/

/-- Rust `MailTypeConfig` (mail_config.rs lines 10-15). -/
structure MailTypeConfig where
  to_names : List String
  cc_names : List String
  subject_template : String
  body_template : String
  deriving DecidableEq, Repr

/-- Rust `MailConfig` (mail_config.rs lines 5-7): a `HashMap<String, MailTypeConfig>`,
embedded as an association list with unique keys looked up by first match. -/
structure MailConfig where
  mail_types : List (String × MailTypeConfig)
  deriving DecidableEq, Repr

/-- Rust `MailConfig::get_mail_type` (mail_config.rs lines 18-20). -/
def MailConfig.get_mail_type (c : MailConfig) (mail_type : String) :
    Option MailTypeConfig :=
  (c.mail_types.find? (fun p => p.1 = mail_type)).map Prod.snd

/-- Rust `MailTypeConfig::format_subject` (mail_config.rs lines 24-29): three
chained `str::replace` passes, in this fixed order. -/
def MailTypeConfig.format_subject (c : MailTypeConfig)
    (department from_ time : String) : String :=
  rustReplace (rustReplace (rustReplace c.subject_template
    "{department}" department) "{from}" from_) "{time}" time

/-- Rust `MailTypeConfig::format_body` (mail_config.rs lines 31-36). -/
def MailTypeConfig.format_body (c : MailTypeConfig)
    (work_time : Option String) : String :=
  match work_time with
  | some time => rustReplace c.body_template "{work_time}" time
  | none => c.body_template

/-! ### Mail draft (src/rust/mail_composer/src/domain/entities/mail_draft.rs) -/

/-- Rust `MailDraft` (mail_draft.rs lines 8-13).  The Rust field `to` is a Lean
token, hence `to_`. -/
structure MailDraft where
  to_ : List EmailAddress
  cc : List EmailAddress
  subject : Subject
  body : MailBody
  deriving DecidableEq, Repr

/-- Rust `MailDraft::new` (mail_draft.rs lines 26-33). -/
def MailDraft.new (to_ cc : List EmailAddress) (subject : Subject)
    (body : MailBody) : MailDraft :=
  ⟨to_, cc, subject, body⟩

/-- Rust `MailDraft::to_addresses_as_string` (mail_draft.rs lines 56-62):
comma-join of the raw address strings. -/
def MailDraft.to_addresses_as_string (d : MailDraft) : String :=
  String.intercalate "," (d.to_.map EmailAddress.val)

/-- Rust `MailDraft::cc_addresses_as_string` (mail_draft.rs lines 65-71). -/
def MailDraft.cc_addresses_as_string (d : MailDraft) : String :=
  String.intercalate "," (d.cc.map EmailAddress.val)

/-! ### Mail-client launcher
(src/rust/mail_composer/src/infrastructure/outbound/thunderbird_mail_client_adapter.rs) -/

/-- The launcher's `escape_quotes` closure (thunderbird_mail_client_adapter.rs
line 40): `|s| s.replace('\'', "'")` — it replaces a single quote by a single
quote, verbatim from the source. -/
def escape_quotes (s : String) : String :=
  rustReplace s "'" "'"

/-- Rust `ThunderbirdMailClientAdapter::build_compose_arg`
(thunderbird_mail_client_adapter.rs lines 33-49). -/
def build_compose_arg (draft : MailDraft) : String :=
  let to_ := draft.to_addresses_as_string
  let cc := draft.cc_addresses_as_string
  let subject := draft.subject.val
  let body := draft.body.to_crlf
  "format=plain,to='" ++ escape_quotes to_ ++ "',cc='" ++ escape_quotes cc ++
    "',subject='" ++ escape_quotes subject ++ "',body='" ++ escape_quotes body ++ "'"

/-! ### Address book
(src/rust/mail_composer/src/adapters/outbound/json_address_book_adapter.rs and
src/rust/mail_composer/src/domain/interfaces/address_book.rs) -/

/-- Rust `JsonAddressBookAdapter::resolve` (json_address_book_adapter.rs lines
112-120) specialised to the adapter's name→address map, embedded as an
association list looked up by first match (`BTreeMap` keys are unique). -/
def resolve (map : List (String × String)) (key_name : String) :
    AppResult EmailAddress :=
  match (map.find? (fun p => p.1 = key_name)).map Prod.snd with
  | none =>
    .error (((AppError.new .NotFound).with_message
        "指定された名前に対応するメールアドレスが見つかりません。").with_action
        "AddressBookの内容と指定した名前を確認してください。")
  | some address => EmailAddress.parse address

/-- The `AddressBookPort::resolve_many` default method (address_book.rs lines
24-29): `key_names.iter().map(|k| self.resolve(k)).collect()` over an arbitrary
implementation of `resolve`; `collect` into a `Result` stops at the first
error. -/
def resolve_many (resolveFn : String → AppResult EmailAddress) :
    List String → AppResult (List EmailAddress)
  | [] => .ok []
  | k :: ks =>
    match resolveFn k with
    | .error e => .error e
    | .ok a =>
      match resolve_many resolveFn ks with
      | .error e => .error e
      | .ok rest => .ok (a :: rest)

/-! ### Start-time store
(src/rust/mail_composer/src/domain/entities/start_time_map.rs and
src/rust/mail_composer/src/adapters/outbound/json_work_time_adapter.rs) -/

/-- Rust `StartTimeMap` (start_time_map.rs line 6): a `BTreeMap<String, String>`,
embedded as a key-sorted association list. -/
abbrev StartTimeMap := List (String × String)

/-- Rust `BTreeMap::insert` on the sorted association list: last write wins. -/
def btreeInsert : StartTimeMap → String → String → StartTimeMap
  | [], key, time => [(key, time)]
  | (k, v) :: rest, key, time =>
    if key < k then (key, time) :: (k, v) :: rest
    else if key = k then (key, time) :: rest
    else (k, v) :: btreeInsert rest key time

/-- Rust `StartTimeMap::set_start_time` (start_time_map.rs lines 15-17). -/
def set_start_time (m : StartTimeMap) (key time : String) : StartTimeMap :=
  btreeInsert m key time

/-- Rust `StartTimeMap::get_start_time` (start_time_map.rs lines 20-22). -/
def get_start_time (m : StartTimeMap) (key : String) : Option String :=
  (m.find? (fun p => p.1 = key)).map Prod.snd

/-- The state of the `work_times.json` file seen by `JsonWorkTimeAdapter`:
absent, readable with a parseable map, unreadable (I/O error), or readable
but not parseable as JSON. -/
inductive StoreFile where
  | absent
  | file (m : StartTimeMap)
  | unreadable
  | unparsable
  deriving DecidableEq, Repr

/-- Rust `JsonWorkTimeAdapter::load_start_time_map` (json_work_time_adapter.rs
lines 53-74): an absent file is the empty map; a read failure is an
`InternalServerError`; a parse failure is `UnavailableForLegalReasons`. -/
def load_start_time_map : StoreFile → AppResult StartTimeMap
  | .absent => .ok []
  | .file m => .ok m
  | .unreadable =>
    .error (((AppError.new .InternalServerError).with_message
        "作業時間ファイルの読み込みに失敗しました。").with_action
        "ファイルの存在とアクセス権限を確認してください。")
  | .unparsable =>
    .error (((AppError.new .UnavailableForLegalReasons).with_message
        "作業時間ファイルの解析に失敗しました。").with_action
        "ファイルの形式が正しいことを確認してください。")

/-- Rust `JsonWorkTimeAdapter::save_start_time` (json_work_time_adapter.rs lines
99-103): read the whole map, upsert the one entry, rewrite the whole file.
`date.to_string()` is the caller-supplied `YYYY-MM-DD` string here; the
successful write is the returned file state. -/
def save_start_time (store : StoreFile) (date : String) (start_time : WorkTime) :
    AppResult StoreFile :=
  match load_start_time_map store with
  | .error e => .error e
  | .ok m => .ok (.file (set_start_time m date start_time.val))

/-- Rust `JsonWorkTimeAdapter::load_start_time` (json_work_time_adapter.rs lines
105-113): look the date up and re-validate the stored string with
`WorkTime::new`. -/
def load_start_time (store : StoreFile) (date : String) :
    AppResult (Option WorkTime) :=
  match load_start_time_map store with
  | .error e => .error e
  | .ok m =>
    match get_start_time m date with
    | some time_str =>
      match WorkTime.new time_str with
      | .error e => .error e
      | .ok work_time => .ok (some work_time)
    | none => .ok none

/-! ### App configuration
(src/rust/mail_composer/src/domain/value_objects/app_configuration.rs) -/

/-- Rust `AppConfiguration` (app_configuration.rs lines 10-27).  The Rust field
`from` is a Lean keyword, hence `from_`. -/
structure AppConfiguration where
  from_ : String
  department : String
  thunderbird_exe : String
  log_dir : String
  input_dir : String
  address_book_file : String
  output_dir : String
  start_time_file : String
  deriving DecidableEq, Repr

/-! ### Use case
(src/rust/mail_composer/src/application/usecases/remote_work_mail_use_case.rs)

The use case is generic over five ports.  The embedding instantiates them with
the concrete adapters of the crate: the configuration and mail-config ports
deliver a loaded value or an error, the address book is the adapter's
name→address map, the work-time port is `JsonWorkTimeAdapter` over a
`StoreFile`, and the mail client records the draft it is handed
(`compose_mail` in dry-run mode prints the compose argument and succeeds). -/

/-- The environment a single use-case invocation runs in. `clock` is what
`WorkTime::now()` formats from the wall clock (`%H:%M`), `today` what
`Local::now().date_naive().to_string()` yields (`YYYY-MM-DD`). -/
structure Env where
  configuration : AppResult AppConfiguration
  mailConfig : AppResult MailConfig
  addressBook : List (String × String)
  store : StoreFile
  clock : String
  today : String

/-- Outcome of a use-case run: the draft handed to
`MailClientPort::compose_mail` (or the propagated error), and the final state
of the start-time store file. -/
structure Outcome where
  result : AppResult MailDraft
  store : StoreFile
  deriving DecidableEq, Repr

/-- Rust `RemoteWorkMailUseCase::send_remote_work_start` (remote_work_mail_use_case.rs
lines 68-105), with each `?` an explicit match.  The store write
(`save_today_start_time`, line 84) happens after `WorkTime::now()` and before
the two `resolve_email_addresses` calls (lines 89-90). -/
def send_remote_work_start (env : Env) : Outcome :=
  match env.configuration with
  | .error e => ⟨.error e, env.store⟩
  | .ok config =>
  match env.mailConfig with
  | .error e => ⟨.error e, env.store⟩
  | .ok mail_config =>
  match mail_config.get_mail_type "remote_work_start" with
  | none =>
    ⟨.error ((AppError.new .NotFound).with_message
        "remote_work_start 設定が見つかりません"), env.store⟩
  | some start_config =>
  match WorkTime.new env.clock with
  | .error e => ⟨.error e, env.store⟩
  | .ok now_time =>
  match save_start_time env.store env.today now_time with
  | .error e => ⟨.error e, env.store⟩
  | .ok store' =>
  match resolve_many (resolve env.addressBook) start_config.to_names with
  | .error e => ⟨.error e, store'⟩
  | .ok to_addresses =>
  match resolve_many (resolve env.addressBook) start_config.cc_names with
  | .error e => ⟨.error e, store'⟩
  | .ok cc_addresses =>
  match Subject.new (start_config.format_subject config.department config.from_
      now_time.val) with
  | .error e => ⟨.error e, store'⟩
  | .ok subject =>
  let body := MailBody.new (start_config.format_body none)
  ⟨.ok (MailDraft.new to_addresses cc_addresses subject body), store'⟩

/-- Rust `RemoteWorkMailUseCase::send_remote_work_end` (remote_work_mail_use_case.rs
lines 115-159).  `load_today_start_time()?.unwrap_or_else(|| WorkTime::new("--:--").unwrap())`
falls back to the sentinel when today has no recorded start; `WorkTime::new("--:--")`
succeeds (length 5), so the `unwrap` never panics. -/
def send_remote_work_end (env : Env) : Outcome :=
  match env.configuration with
  | .error e => ⟨.error e, env.store⟩
  | .ok config =>
  match env.mailConfig with
  | .error e => ⟨.error e, env.store⟩
  | .ok mail_config =>
  match mail_config.get_mail_type "remote_work_end" with
  | none =>
    ⟨.error ((AppError.new .NotFound).with_message
        "remote_work_end 設定が見つかりません"), env.store⟩
  | some end_config =>
  match WorkTime.new env.clock with
  | .error e => ⟨.error e, env.store⟩
  | .ok end_time =>
  match load_start_time env.store env.today with
  | .error e => ⟨.error e, env.store⟩
  | .ok opt_start =>
  let start_time := opt_start.getD ⟨"--:--"⟩
  match resolve_many (resolve env.addressBook) end_config.to_names with
  | .error e => ⟨.error e, env.store⟩
  | .ok to_addresses =>
  match resolve_many (resolve env.addressBook) end_config.cc_names with
  | .error e => ⟨.error e, env.store⟩
  | .ok cc_addresses =>
  let work_range := WorkTimeRange.new start_time end_time
  match Subject.new (end_config.format_subject config.department config.from_
      end_time.val) with
  | .error e => ⟨.error e, env.store⟩
  | .ok subject =>
  let body := MailBody.new (end_config.format_body (some work_range.to_string))
  ⟨.ok (MailDraft.new to_addresses cc_addresses subject body), env.store⟩

/-- Per-character CRLF expansion, the spec-side description of
`MailBody::to_crlf` used to state claim C9: each `\n` becomes `\r\n`, every
other character is kept. -/
def crlfExpand (c : Char) : List Char :=
  if c = '\n' then ['\r', '\n'] else [c]

/-! ### Lemmas about the `str::replace` scanner -/

/-- A positive skip state just drops the skipped characters. -/
theorem replaceGo_skip (pat rep : List Char) :
    ∀ (l : List Char) (k : Nat),
      replaceGo pat rep l k = replaceGo pat rep (l.drop k) 0
  | [], k => by cases k <;> rfl
  | _ :: _, 0 => rfl
  | c :: rest, k + 1 => by
      show replaceGo pat rep rest k = _
      rw [replaceGo_skip pat rep rest k]
      rfl

/-- Replacing a non-empty pattern by itself is the identity. -/
theorem replaceGo_self (pat : List Char) (hp : pat ≠ []) :
    ∀ l : List Char, replaceGo pat pat l 0 = l
  | [] => rfl
  | c :: rest => by
      obtain ⟨p0, pt, hpat⟩ : ∃ p0 pt, pat = p0 :: pt := by
        cases pat with
        | nil => exact absurd rfl hp
        | cons a as => exact ⟨a, as, rfl⟩
      by_cases h : pat.isPrefixOf (c :: rest)
      · obtain ⟨t, ht⟩ := List.isPrefixOf_iff_prefix.mp h
        show (if pat.isPrefixOf (c :: rest) then
            pat ++ replaceGo pat pat rest (pat.length - 1)
          else c :: replaceGo pat pat rest 0) = c :: rest
        rw [if_pos h, replaceGo_skip]
        subst hpat
        obtain ⟨hc, hrest⟩ : p0 = c ∧ pt ++ t = rest := by
          refine ⟨?_, ?_⟩ <;> injection ht
        have hdrop : rest.drop ((p0 :: pt).length - 1) = t := by
          rw [← hrest]
          simpa using List.drop_left pt t
        rw [hdrop, replaceGo_self (p0 :: pt) hp t, hc, ← hrest]
        simp
      · show (if pat.isPrefixOf (c :: rest) then
            pat ++ replaceGo pat pat rest (pat.length - 1)
          else c :: replaceGo pat pat rest 0) = c :: rest
        rw [if_neg h, replaceGo_self pat hp rest]
termination_by l => l.length
decreasing_by
  · have h1 : t.length ≤ rest.length := by
      have := congrArg List.length hrest
      simp at this
      omega
    simp only [List.length_cons]
    omega
  · simp

/-- The scan at the head of a pattern occurrence emits the replacement and
continues after the matched characters. -/
theorem replaceGo_pat_head (pat rep t : List Char) (hp : pat ≠ []) :
    replaceGo pat rep (pat ++ t) 0 = rep ++ replaceGo pat rep t 0 := by
  obtain ⟨p0, pt, hpat⟩ : ∃ p0 pt, pat = p0 :: pt := by
    cases pat with
    | nil => exact absurd rfl hp
    | cons a as => exact ⟨a, as, rfl⟩
  subst hpat
  show (if (p0 :: pt).isPrefixOf (p0 :: (pt ++ t)) then
      rep ++ replaceGo (p0 :: pt) rep (pt ++ t) ((p0 :: pt).length - 1)
    else (p0 :: (pt ++ t)).head (by simp) :: replaceGo (p0 :: pt) rep (pt ++ t) 0)
      = rep ++ replaceGo (p0 :: pt) rep t 0
  have hpre : (p0 :: pt).isPrefixOf (p0 :: (pt ++ t)) = true := by
    refine List.isPrefixOf_iff_prefix.mpr ?_
    simpa using List.prefix_append (p0 :: pt) t
  rw [if_pos hpre, replaceGo_skip]
  have hdrop : (pt ++ t).drop ((p0 :: pt).length - 1) = t := by
    simpa using List.drop_left pt t
  rw [hdrop]

/-- A character that cannot start a pattern occurrence is copied verbatim. -/
theorem replaceGo_cons_ne (p0 c : Char) (pt rep l : List Char) (hne : p0 ≠ c) :
    replaceGo (p0 :: pt) rep (c :: l) 0 = c :: replaceGo (p0 :: pt) rep l 0 := by
  show (if (p0 :: pt).isPrefixOf (c :: l) then
      rep ++ replaceGo (p0 :: pt) rep l ((p0 :: pt).length - 1)
    else c :: replaceGo (p0 :: pt) rep l 0) = c :: replaceGo (p0 :: pt) rep l 0
  rw [if_neg]
  intro h
  obtain ⟨t, ht⟩ := List.isPrefixOf_iff_prefix.mp h
  exact hne (by injection ht)

/-- A single-character pattern replaces exactly the occurrences of that
character. -/
theorem replaceGo_single (a : Char) (rep : List Char) :
    ∀ l : List Char,
      replaceGo [a] rep l 0 =
        l.flatMap (fun c => if c = a then rep else [c])
  | [] => rfl
  | c :: rest => by
      by_cases h : c = a
      · subst h
        have hh := replaceGo_pat_head [c] rep rest (by simp)
        simp only [List.singleton_append] at hh
        rw [hh, replaceGo_single c rep rest]
        simp
      · rw [replaceGo_cons_ne a c [] rep rest (fun hac => h hac.symm),
          replaceGo_single a rep rest]
        simp [h]

/-- The launcher's escape step replaces `'` by `'` and is therefore the
identity on every string. -/
theorem escape_quotes_id (s : String) : escape_quotes s = s := by
  have h : replaceGo ("'" : String).data ("'" : String).data s.data 0 = s.data :=
    replaceGo_self _ (by decide) _
  unfold escape_quotes rustReplace
  exact congrArg String.mk h

/-- Rust `to_crlf` is the per-character CRLF expansion. -/
theorem to_crlf_eq_flatMap (b : MailBody) :
    (b.to_crlf).data = b.val.data.flatMap crlfExpand := by
  unfold MailBody.to_crlf rustReplace
  have h := replaceGo_single '\n' ("\r\n" : String).data b.val.data
  simp only [show ("\n" : String).data = ['\n'] from rfl] at h
  rw [h]
  rfl

/-- In a per-character CRLF expansion, every `\n` sits right after a `\r`
(out-of-range reads default to `'#'`, which is neither). -/
theorem flatMap_crlfExpand_no_lone_lf :
    ∀ (l : List Char) (i : Nat),
      (l.flatMap crlfExpand).getD i '#' = '\n' →
        0 < i ∧ (l.flatMap crlfExpand).getD (i - 1) '#' = '\r'
  | [], i => by intro h; simp [List.getD] at h
  | c :: rest, i => by
      intro h
      by_cases hc : c = '\n'
      · subst hc
        have hexp : ('\n' :: rest).flatMap crlfExpand
            = '\r' :: '\n' :: rest.flatMap crlfExpand := by
          simp [crlfExpand]
        rw [hexp] at h ⊢
        match i with
        | 0 => simp at h
        | 1 => exact ⟨by omega, by simp⟩
        | j + 2 =>
          have hj := flatMap_crlfExpand_no_lone_lf rest j (by simpa using h)
          refine ⟨by omega, ?_⟩
          have : j + 2 - 1 = (j - 1) + 1 + 1 := by omega
          rw [this]
          simpa using hj.2
      · have hexp : (c :: rest).flatMap crlfExpand
            = c :: rest.flatMap crlfExpand := by
          simp [crlfExpand, hc]
        rw [hexp] at h ⊢
        match i with
        | 0 => simp at h; exact absurd h hc
        | j + 1 =>
          have hj := flatMap_crlfExpand_no_lone_lf rest j (by simpa using h)
          refine ⟨by omega, ?_⟩
          have : j + 1 - 1 = (j - 1) + 1 := by omega
          rw [this]
          simpa using hj.2

/-- A string consisting of exactly the pattern is replaced wholesale. -/
theorem replaceGo_pat_exact (p rep : List Char) (hp : p ≠ []) :
    replaceGo p rep p 0 = rep := by
  have h := replaceGo_pat_head p rep [] hp
  rw [List.append_nil] at h
  simpa [replaceGo] using h

/-! ### Lemmas about the sorted-association-list `BTreeMap` -/

/-- After an upsert the written key maps to the written value. -/
theorem get_btreeInsert_self :
    ∀ (m : StartTimeMap) (key time : String),
      get_start_time (btreeInsert m key time) key = some time
  | [], key, time => by simp [btreeInsert, get_start_time]
  | (k, v) :: rest, key, time => by
      by_cases h1 : key < k
      · simp [btreeInsert, h1, get_start_time]
      · by_cases h2 : key = k
        · simp [btreeInsert, h1, h2, get_start_time]
        · have ih := get_btreeInsert_self rest key time
          simp only [btreeInsert, if_neg h1, if_neg h2]
          simpa [get_start_time, List.find?_cons, Ne.symm h2] using ih

/-- An upsert leaves every other key unchanged. -/
theorem get_btreeInsert_ne :
    ∀ (m : StartTimeMap) (key time other : String), other ≠ key →
      get_start_time (btreeInsert m key time) other = get_start_time m other
  | [], key, time, other => by
      intro hne
      simp [btreeInsert, get_start_time, List.find?_cons, Ne.symm hne]
  | (k, v) :: rest, key, time, other => by
      intro hne
      by_cases h1 : key < k
      · have hstep : btreeInsert ((k, v) :: rest) key time
            = (key, time) :: (k, v) :: rest := by
          simp [btreeInsert, h1]
        rw [hstep]
        simp [get_start_time, List.find?_cons, Ne.symm hne]
      · by_cases h2 : key = k
        · subst h2
          have hstep : btreeInsert ((key, v) :: rest) key time
              = (key, time) :: rest := by
            simp [btreeInsert, h1]
          rw [hstep]
          simp [get_start_time, List.find?_cons, Ne.symm hne]
        · have hstep : btreeInsert ((k, v) :: rest) key time
              = (k, v) :: btreeInsert rest key time := by
            simp [btreeInsert, h1, h2]
          rw [hstep]
          have ih := get_btreeInsert_ne rest key time other hne
          simp only [get_start_time, List.find?_cons]
          by_cases h3 : k = other
          · simp [h3]
          · simp only [get_start_time] at ih
            simpa [h3] using ih

/-! ### Claim theorems -/

/-- C1 (code bug): `WorkTime::new` does not reject strings without a `:`.
The string `"ab-cd"` has five bytes and no colon at all, yet `WorkTime::new`
accepts it, because `!time.matches(':').count() == 1` takes the bitwise
complement of the count (never equal to `1` for a five-byte string) instead of
testing `count != 1`; only the length test is effective.  The claim (and the
code's own error message, "specify the time in HH:MM form") requires exactly
one `:`, so this input is accepted against the documented intent. -/
theorem c1_worktime_new_accepts_colonless :
    WorkTime.new "ab-cd" = .ok ⟨"ab-cd"⟩ ∧ colonCount "ab-cd" = 0 ∧
      WorkTime.new "9:315" = .ok ⟨"9:315"⟩ ∧ WorkTime.new "--:--" = .ok ⟨"--:--"⟩ := by
  refine ⟨?_, ?_, ?_, ?_⟩ <;> decide

/-- C9: `to_crlf` is exactly the per-character expansion that rewrites each
`\n` (unconditionally, so an existing `\r\n` becomes `\r\r\n`) into `\r\n`,
and in its output every `\n` is immediately preceded by `\r` (reads outside
the string default to `'#'`). -/
theorem c9_to_crlf_no_lone_lf (b : MailBody) :
    (b.to_crlf).data = b.val.data.flatMap crlfExpand ∧
    (∀ i : Nat, (b.to_crlf).data.getD i '#' = '\n' →
        0 < i ∧ (b.to_crlf).data.getD (i - 1) '#' = '\r') ∧
    (MailBody.new "a\r\nb").to_crlf = "a\r\r\nb" := by
  refine ⟨to_crlf_eq_flatMap b, ?_, by decide⟩
  intro i h
  rw [to_crlf_eq_flatMap b] at h ⊢
  exact flatMap_crlfExpand_no_lone_lf b.val.data i h

/-- C9 witness: in the CRLF rendering of `"a\nb"` the `\n` at index 2 is
preceded by a `\r` at index 1. -/
theorem c9_to_crlf_no_lone_lf_witness :
    0 < 2 ∧ ((MailBody.new "a\nb").to_crlf).data.getD (2 - 1) '#' = '\r' :=
  (c9_to_crlf_no_lone_lf (MailBody.new "a\nb")).2.1 2 (by decide)

/-- C5: the compose-argument of every draft is the format string with the
comma-joined raw `to`/`cc` address strings (the empty string for an empty
list, the field still present), the raw subject, and the CRLF rendering of the
body; the quote-escape step is the identity, so single quotes pass through
unchanged. -/
theorem c5_build_compose_arg (draft : MailDraft) :
    build_compose_arg draft =
      "format=plain,to='" ++ String.intercalate "," (draft.to_.map EmailAddress.val) ++
        "',cc='" ++ String.intercalate "," (draft.cc.map EmailAddress.val) ++
        "',subject='" ++ draft.subject.val ++
        "',body='" ++ draft.body.to_crlf ++ "'" ∧
    (∀ s : String, escape_quotes s = s) ∧
    String.intercalate "," (([] : List EmailAddress).map EmailAddress.val) = "" := by
  refine ⟨?_, escape_quotes_id, rfl⟩
  simp only [build_compose_arg, MailDraft.to_addresses_as_string,
    MailDraft.cc_addresses_as_string, escape_quotes_id]

/-- C7: `format_subject` applies one complete left-to-right replacement pass
per token, for the tokens in the fixed order department, from, time: every
occurrence is replaced even when the substituted value contains the token
itself (first conjunct, arbitrary `time` value); a token occurrence produced
by an earlier pass's value is replaced by a later pass (second conjunct); a
value substituted by a later pass never re-triggers an earlier token, so the
result is not a textual fixed point (third conjunct). -/
theorem c7_format_subject_single_pass :
    (∀ time : String,
        (MailTypeConfig.mk [] [] "{time} {time}" "").format_subject "D" "F" time
          = time ++ " " ++ time) ∧
    (MailTypeConfig.mk [] [] "{department}" "").format_subject "{time}" "F" "T"
      = "T" ∧
    (MailTypeConfig.mk [] [] "{time}" "").format_subject "D" "F" "{department}"
      = "{department}" := by
  refine ⟨?_, by decide, by decide⟩
  intro time
  show rustReplace (rustReplace (rustReplace "{time} {time}" "{department}" "D")
      "{from}" "F") "{time}" time = time ++ " " ++ time
  have e1 : rustReplace (rustReplace "{time} {time}" "{department}" "D")
      "{from}" "F" = "{time} {time}" := by decide
  rw [e1]
  apply String.ext
  show replaceGo ("{time}" : String).data time.data
      ("{time} {time}" : String).data 0 = (time ++ " " ++ time).data
  have hsplit : ("{time} {time}" : String).data
      = ("{time}" : String).data ++ (' ' :: ("{time}" : String).data) := by decide
  rw [hsplit, replaceGo_pat_head _ _ _ (by decide),
    show ("{time}" : String).data = '{' :: ['t', 'i', 'm', 'e', '}'] from rfl,
    replaceGo_cons_ne '{' ' ' _ _ _ (by decide),
    replaceGo_pat_exact _ _ (by decide)]
  simp [String.data_append, show (" " : String).data = [' '] from rfl]

/-- C8: `format_body` with a value replaces every occurrence of the
work-time token with that value (first conjunct, arbitrary value); with no
value it returns the template verbatim for every config (second conjunct),
in particular keeping literal work-time tokens and other placeholder-like
text such as the time token (third conjunct). -/
theorem c8_format_body :
    (∀ v : String,
        (MailTypeConfig.mk [] [] "" "a {work_time} b {work_time}").format_body
            (some v) = "a " ++ v ++ " b " ++ v) ∧
    (∀ cfg : MailTypeConfig, cfg.format_body none = cfg.body_template) ∧
    (MailTypeConfig.mk [] [] "" "x {work_time} {time}").format_body none
      = "x {work_time} {time}" := by
  refine ⟨?_, fun cfg => rfl, rfl⟩
  intro v
  show rustReplace "a {work_time} b {work_time}" "{work_time}" v
      = "a " ++ v ++ " b " ++ v
  apply String.ext
  show replaceGo ("{work_time}" : String).data v.data
      ("a {work_time} b {work_time}" : String).data 0
      = ("a " ++ v ++ " b " ++ v).data
  have hsplit : ("a {work_time} b {work_time}" : String).data
      = 'a' :: ' ' :: (("{work_time}" : String).data ++
          (' ' :: 'b' :: ' ' :: ("{work_time}" : String).data)) := by decide
  rw [hsplit,
    show ("{work_time}" : String).data
        = '{' :: ['w', 'o', 'r', 'k', '_', 't', 'i', 'm', 'e', '}'] from rfl,
    replaceGo_cons_ne '{' 'a' _ _ _ (by decide),
    replaceGo_cons_ne '{' ' ' _ _ _ (by decide),
    replaceGo_pat_head _ _ _ (by decide),
    replaceGo_cons_ne '{' ' ' _ _ _ (by decide),
    replaceGo_cons_ne '{' 'b' _ _ _ (by decide),
    replaceGo_cons_ne '{' ' ' _ _ _ (by decide),
    replaceGo_pat_exact _ _ (by decide)]
  simp [String.data_append, show ("a " : String).data = ['a', ' '] from rfl,
    show (" b " : String).data = [' ', 'b', ' '] from rfl]

/-- C4: for every underlying `resolve` and every key list, `resolve_many`
either succeeds with a list of the same length whose `i`-th element is the
resolution of the `i`-th key (order preserved), or fails with the error of the
first key that does not resolve, returning no partial results. -/
theorem c4_resolve_many_order (resolveFn : String → AppResult EmailAddress) :
    ∀ ks : List String,
      (∃ es : List EmailAddress, resolve_many resolveFn ks = .ok es ∧
          es.length = ks.length ∧
          ∀ i a, ks.get? i = some a →
            ∃ b, es.get? i = some b ∧ resolveFn a = .ok b) ∨
      (∃ i e, resolve_many resolveFn ks = .error e ∧
          (∃ a, ks.get? i = some a ∧ resolveFn a = .error e) ∧
          ∀ j b, j < i → ks.get? j = some b → ∃ c, resolveFn b = .ok c)
  | [] =>
      Or.inl ⟨[], rfl, rfl, by intro i a h; simp [List.get?] at h⟩
  | k :: ks => by
      cases hk : resolveFn k with
      | error e =>
          refine Or.inr ⟨0, e, ?_, ⟨k, rfl, hk⟩, ?_⟩
          · simp [resolve_many, hk]
          · intro j b hj
            omega
      | ok a =>
          rcases c4_resolve_many_order resolveFn ks with
            ⟨es, hes, hlen, hidx⟩ | ⟨i, e, herr, ⟨a', ha', he'⟩, hprev⟩
          · refine Or.inl ⟨a :: es, ?_, by simp [hlen], ?_⟩
            · simp [resolve_many, hk, hes]
            · intro i x hx
              cases i with
              | zero =>
                  simp only [List.get?] at hx
                  cases hx
                  exact ⟨a, rfl, hk⟩
              | succ j =>
                  simp only [List.get?] at hx ⊢
                  exact hidx j x hx
          · refine Or.inr ⟨i + 1, e, ?_, ⟨a', by simpa using ha', he'⟩, ?_⟩
            · simp [resolve_many, hk, herr]
            · intro j b hj hjb
              cases j with
              | zero =>
                  simp only [List.get?] at hjb
                  cases hjb
                  exact ⟨a, hk⟩
              | succ j' =>
                  exact hprev j' b (by omega) (by simpa using hjb)

/-- C4 witness: the theorem applied to the address book `[("Alice", "a@x")]`
and the key list `["Alice", "Bob"]`. -/
theorem c4_resolve_many_order_witness :
    (∃ es : List EmailAddress,
        resolve_many (resolve [("Alice", "a@x")]) ["Alice", "Bob"] = .ok es ∧
        es.length = (["Alice", "Bob"] : List String).length ∧
        ∀ i a, (["Alice", "Bob"] : List String).get? i = some a →
          ∃ b, es.get? i = some b ∧ resolve [("Alice", "a@x")] a = .ok b) ∨
    (∃ i e, resolve_many (resolve [("Alice", "a@x")]) ["Alice", "Bob"] = .error e ∧
        (∃ a, (["Alice", "Bob"] : List String).get? i = some a ∧
          resolve [("Alice", "a@x")] a = .error e) ∧
        ∀ j b, j < i → (["Alice", "Bob"] : List String).get? j = some b →
          ∃ c, resolve [("Alice", "a@x")] b = .ok c) :=
  c4_resolve_many_order (resolve [("Alice", "a@x")]) ["Alice", "Bob"]

/-- C3: starting from an absent store file, saving the (valid) time `T` for
date `D` and loading `D` back returns `some T`; loading any other date
returns `none`; and loading from the absent file is `ok none`, not an
error. -/
theorem c3_store_roundtrip (D D' : String) (T : WorkTime)
    (hT : WorkTime.new T.val = .ok T) (hne : D' ≠ D) :
    ∃ f, save_start_time .absent D T = .ok f ∧
      load_start_time f D = .ok (some T) ∧
      load_start_time f D' = .ok none ∧
      load_start_time .absent D' = .ok none := by
  refine ⟨.file [(D, T.val)], rfl, ?_, ?_, rfl⟩
  · simp [load_start_time, load_start_time_map, get_start_time,
      List.find?_cons, hT]
  · simp [load_start_time, load_start_time_map, get_start_time,
      List.find?_cons, Ne.symm hne]

/-- C3 witness: the round trip at date `2024-05-01`, other date `2024-05-02`,
time `09:30`. -/
theorem c3_store_roundtrip_witness :
    ∃ f, save_start_time .absent "2024-05-01" ⟨"09:30"⟩ = .ok f ∧
      load_start_time f "2024-05-01" = .ok (some ⟨"09:30"⟩) ∧
      load_start_time f "2024-05-02" = .ok none ∧
      load_start_time .absent "2024-05-02" = .ok none :=
  c3_store_roundtrip "2024-05-01" "2024-05-02" ⟨"09:30"⟩ (by decide) (by decide)

/-- C10: on a store file that parses to the map `m`, `save_start_time`
rewrites the file with exactly `m` upserted at `D` (so `D` now maps to `T`
regardless of any previous entry), and every date other than `D` is mapped
exactly as before. -/
theorem c10_save_start_time_frame (m : StartTimeMap) (D D' : String)
    (T : WorkTime) (hne : D' ≠ D) :
    save_start_time (.file m) D T = .ok (.file (set_start_time m D T.val)) ∧
    get_start_time (set_start_time m D T.val) D = some T.val ∧
    get_start_time (set_start_time m D T.val) D' = get_start_time m D' :=
  ⟨rfl, get_btreeInsert_self m D T.val, get_btreeInsert_ne m D T.val D' hne⟩

/-- C10 witness: upserting `2024-05-01 ↦ 09:30` over a map that already binds
`2024-05-01` and `2024-04-30` overwrites the former and preserves the
latter. -/
theorem c10_save_start_time_frame_witness :
    save_start_time (.file [("2024-04-30", "08:00"), ("2024-05-01", "07:00")])
        "2024-05-01" ⟨"09:30"⟩
      = .ok (.file (set_start_time
          [("2024-04-30", "08:00"), ("2024-05-01", "07:00")] "2024-05-01" "09:30")) ∧
    get_start_time (set_start_time
        [("2024-04-30", "08:00"), ("2024-05-01", "07:00")] "2024-05-01" "09:30")
        "2024-05-01" = some "09:30" ∧
    get_start_time (set_start_time
        [("2024-04-30", "08:00"), ("2024-05-01", "07:00")] "2024-05-01" "09:30")
        "2024-04-30"
      = get_start_time [("2024-04-30", "08:00"), ("2024-05-01", "07:00")]
          "2024-04-30" :=
  c10_save_start_time_frame [("2024-04-30", "08:00"), ("2024-05-01", "07:00")]
    "2024-05-01" "2024-04-30" ⟨"09:30"⟩ (by decide)

/-- C2: in the work-start use case, when recipient resolution fails (after
configuration, template lookup, clock read and the start-time save succeeded)
the whole operation returns that error and no draft reaches the mail client,
but the store file has already been rewritten with today's start time. -/
theorem c2_start_persists_before_resolution (env : Env)
    (config : AppConfiguration) (mc : MailConfig) (sc : MailTypeConfig)
    (now : WorkTime) (store' : StoreFile) (e : AppError)
    (h1 : env.configuration = .ok config)
    (h2 : env.mailConfig = .ok mc)
    (h3 : mc.get_mail_type "remote_work_start" = some sc)
    (h4 : WorkTime.new env.clock = .ok now)
    (h5 : save_start_time env.store env.today now = .ok store')
    (h6 : resolve_many (resolve env.addressBook) sc.to_names = .error e) :
    send_remote_work_start env = ⟨.error e, store'⟩ ∧
    ∃ m, store' = .file m ∧ get_start_time m env.today = some now.val := by
  constructor
  · simp [send_remote_work_start, h1, h2, h3, h4, h5, h6]
  · cases hload : load_start_time_map env.store with
    | error e2 =>
        rw [save_start_time, hload] at h5
        cases h5
    | ok m0 =>
        rw [save_start_time, hload] at h5
        cases h5
        exact ⟨set_start_time m0 env.today now.val, rfl,
          get_btreeInsert_self m0 env.today now.val⟩

/-- C2 witness: with an empty address book and a template addressed to
`"Bob"`, work-start fails with the not-found error while the store now holds
today's start time `09:30`. -/
theorem c2_start_persists_before_resolution_witness :
    send_remote_work_start
        (Env.mk (.ok ⟨"Taro", "Dev", "tb", "log", "in", "ab", "out", "wt"⟩)
          (.ok ⟨[("remote_work_start",
            ⟨["Bob"], [], "S", "B"⟩)]⟩) [] .absent "09:30" "2024-05-01")
      = ⟨.error (((AppError.new .NotFound).with_message
            "指定された名前に対応するメールアドレスが見つかりません。").with_action
            "AddressBookの内容と指定した名前を確認してください。"),
          .file [("2024-05-01", "09:30")]⟩ ∧
    ∃ m, (StoreFile.file [("2024-05-01", "09:30")]) = .file m ∧
      get_start_time m "2024-05-01" = some "09:30" := by
  have h := c2_start_persists_before_resolution
    (Env.mk (.ok ⟨"Taro", "Dev", "tb", "log", "in", "ab", "out", "wt"⟩)
      (.ok ⟨[("remote_work_start", ⟨["Bob"], [], "S", "B"⟩)]⟩)
      [] .absent "09:30" "2024-05-01")
    ⟨"Taro", "Dev", "tb", "log", "in", "ab", "out", "wt"⟩
    ⟨[("remote_work_start", ⟨["Bob"], [], "S", "B"⟩)]⟩
    ⟨["Bob"], [], "S", "B"⟩ ⟨"09:30"⟩ (.file [("2024-05-01", "09:30")])
    (((AppError.new .NotFound).with_message
        "指定された名前に対応するメールアドレスが見つかりません。").with_action
        "AddressBookの内容と指定した名前を確認してください。")
    rfl rfl (by decide) (by decide) (by decide) (by decide)
  simpa using h

/-- C6: when the work-end use case finds no recorded start for today, it
falls back to the sentinel start `--:--`, and the draft's body is the body
template with the work-time token replaced by the range string
`--:--` `-` `end`, exactly `WorkTimeRange::to_string` of sentinel and end
time. -/
theorem c6_end_uses_sentinel (env : Env) (config : AppConfiguration)
    (mc : MailConfig) (ec : MailTypeConfig) (endT : WorkTime)
    (tos ccs : List EmailAddress) (subj : Subject)
    (h1 : env.configuration = .ok config)
    (h2 : env.mailConfig = .ok mc)
    (h3 : mc.get_mail_type "remote_work_end" = some ec)
    (h4 : WorkTime.new env.clock = .ok endT)
    (h5 : load_start_time env.store env.today = .ok none)
    (h6 : resolve_many (resolve env.addressBook) ec.to_names = .ok tos)
    (h7 : resolve_many (resolve env.addressBook) ec.cc_names = .ok ccs)
    (h8 : Subject.new (ec.format_subject config.department config.from_
        endT.val) = .ok subj) :
    send_remote_work_end env =
      ⟨.ok (MailDraft.new tos ccs subj (MailBody.new (ec.format_body
          (some ((WorkTimeRange.new ⟨"--:--"⟩ endT).to_string))))), env.store⟩ ∧
    (WorkTimeRange.new ⟨"--:--"⟩ endT).to_string = "--:--" ++ "-" ++ endT.val ∧
    ec.format_body (some ((WorkTimeRange.new ⟨"--:--"⟩ endT).to_string))
      = rustReplace ec.body_template "{work_time}"
          ("--:--" ++ "-" ++ endT.val) := by
  refine ⟨?_, rfl, rfl⟩
  simp [send_remote_work_end, h1, h2, h3, h4, h5, h6, h7, h8]

/-- C6 witness: work-end on an absent store at end time `18:00` composes the
body `Worked --:---18:00.` (the sentinel, the range dash, the end time). -/
theorem c6_end_uses_sentinel_witness :
    send_remote_work_end
        (Env.mk (.ok ⟨"Taro", "Dev", "tb", "log", "in", "ab", "out", "wt"⟩)
          (.ok ⟨[("remote_work_end",
            ⟨[], [], "S", "Worked {work_time}."⟩)]⟩) [] .absent "18:00"
          "2024-05-01")
      = ⟨.ok (MailDraft.new [] [] ⟨"S"⟩ (MailBody.new
          ((MailTypeConfig.mk [] [] "S" "Worked {work_time}.").format_body
            (some ((WorkTimeRange.new ⟨"--:--"⟩ ⟨"18:00"⟩).to_string))))),
          .absent⟩ ∧
    (WorkTimeRange.new ⟨"--:--"⟩ ⟨"18:00"⟩).to_string
      = "--:--" ++ "-" ++ ("18:00" : String) ∧
    (MailTypeConfig.mk [] [] "S" "Worked {work_time}.").format_body
        (some ((WorkTimeRange.new ⟨"--:--"⟩ ⟨"18:00"⟩).to_string))
      = rustReplace "Worked {work_time}." "{work_time}"
          ("--:--" ++ "-" ++ ("18:00" : String)) :=
  c6_end_uses_sentinel
    (Env.mk (.ok ⟨"Taro", "Dev", "tb", "log", "in", "ab", "out", "wt"⟩)
      (.ok ⟨[("remote_work_end", ⟨[], [], "S", "Worked {work_time}."⟩)]⟩)
      [] .absent "18:00" "2024-05-01")
    ⟨"Taro", "Dev", "tb", "log", "in", "ab", "out", "wt"⟩
    ⟨[("remote_work_end", ⟨[], [], "S", "Worked {work_time}."⟩)]⟩
    ⟨[], [], "S", "Worked {work_time}."⟩ ⟨"18:00"⟩ [] [] ⟨"S"⟩
    rfl rfl (by decide) (by decide) (by decide) rfl rfl (by decide)

end MailComposer
